import Mathlib

/-!
Verification of the byte <-> image / audio codec implemented in
src/working.py (game_to_colors_and_audio).  Byte payloads are modelled as
lists of naturals, pixel triplets as triples of naturals, and the zlib
compressor as an abstract function parameter.  Python integer arithmetic
is modelled exactly (Python's nonnegative mod via Int.emod, slice
semantics of b[:-pad] via List.take with truncated subtraction), and the
operations that can raise in Python (the division by zero in
pixels_to_image_file when the pixel count is 0) return Option.none.
-/

namespace WorkingPy

/-- Padding count computed by bytes_to_pixels: Python's (-len(data)) % 3,
which is always nonnegative since Python's % follows the divisor's sign,
exactly like Int.emod. -/
def padOf (n : Nat) : Nat := ((-(n : Int)) % 3).toNat

/-- Grouping a flat byte list into 3-byte triplets, the model of
numpy's arr.reshape((-1, 3)); in the source it is only applied to lists
whose length is a multiple of 3 (the padded data). -/
def group3 : List Nat → List (Nat × Nat × Nat)
  | a :: b :: c :: rest => (a, b, c) :: group3 rest
  | _ => []

/-- Flattening a triplet list back to bytes: the model of
pixels.astype(np.uint8).tobytes() and of pixels.flatten().tobytes(). -/
def flatten3 : List (Nat × Nat × Nat) → List Nat
  | [] => []
  | (a, b, c) :: rest => a :: b :: c :: flatten3 rest

/-- Model of bytes_to_pixels(data): pad with (-len(data)) % 3 zero bytes, then
group into triplets; returns (pixels, pad). -/
def bytes_to_pixels (data : List Nat) : List (Nat × Nat × Nat) × Nat :=
  let pad := padOf data.length
  (group3 (data ++ List.replicate pad 0), pad)

/-- Model of pixels_to_bytes(pixels, pad): flatten to bytes, and when pad is
nonzero drop the last pad bytes (Python b[:-pad], which yields the empty
string when pad is at least the length). -/
def pixels_to_bytes (pixels : List (Nat × Nat × Nat)) (pad : Nat) : List Nat :=
  let b := flatten3 pixels
  if pad ≠ 0 then b.take (b.length - pad) else b

/-- Bounded search for the least w with n ≤ w * w, starting at w and
spending one unit of fuel per step; with fuel n and start 0 it computes
int(math.ceil(math.sqrt(n))).  Structural recursion on the fuel keeps it
kernel-evaluable. -/
def ceilSqrtAux (n : Nat) : Nat → Nat → Nat
  | 0, w => w
  | fuel + 1, w => if n ≤ w * w then w else ceilSqrtAux n fuel (w + 1)

/-- Model of int(math.ceil(math.sqrt(n))) for a natural n: the least w with
n ≤ w * w. -/
def ceilSqrt (n : Nat) : Nat := ceilSqrtAux n n 0

/-- The grid dimensions chosen by pixels_to_image_file when no width is
supplied: width = int(math.ceil(math.sqrt(n))) and
height = int(math.ceil(n / width)).  When n = 0 the chosen width is 0
and Python raises ZeroDivisionError on n / width, modelled as none. -/
def imageDims (n : Nat) : Option (Nat × Nat) :=
  let width := ceilSqrt n
  if width = 0 then none else some (width, (n + width - 1) / width)

/-- Model of pixels_to_image_file(pixels): choose the grid, allocate a zero-filled
canvas of height*width triplets, copy the real triplets into the first
slots, and serialize row-major.  The PNG artifact is modelled by the
row-major triplet list together with (width, height); none models the
ZeroDivisionError on an empty pixel list. -/
def pixels_to_image_file (pixels : List (Nat × Nat × Nat)) :
    Option (List (Nat × Nat × Nat) × Nat × Nat) :=
  match imageDims pixels.length with
  | none => none
  | some (w, h) =>
      some (pixels ++ List.replicate (h * w - pixels.length) (0, 0, 0), w, h)

/-- The compression stage inlined in encode_file (lines 100-105): when
use_zlib is set, compress and keep the result only if it is strictly
shorter; returns (data, used_zlib). -/
def maybe_compress (compress : List Nat → List Nat) (useZlib : Bool)
    (data : List Nat) : List Nat × Bool :=
  if useZlib then
    let comp := compress data
    if comp.length < data.length then (comp, true) else (data, false)
  else (data, false)

/-- The subset of the Metadata Record (meta.json) that the decode paths
consume. -/
structure MetaRecord where
  orig_size_bytes : Nat
  zlib_used : Bool
  pad_bytes : Nat
  image_width : Nat
  image_height : Nat
  deriving Repr, DecidableEq

/-- The artifacts produced by one successful encode_file call: the PNG
pixel grid (row-major), the raw WAV frame bytes, and the Metadata
Record. -/
structure EncodeResult where
  canvas : List (Nat × Nat × Nat)
  wavFrames : List Nat
  meta : MetaRecord
  deriving Repr, DecidableEq

/-- A WAV container: channel count, sample width in bytes, frame rate,
and the raw frame bytes. -/
structure WavFile where
  nchannels : Nat
  sampwidth : Nat
  framerate : Nat
  frames : List Nat
  deriving Repr, DecidableEq

/-- Model of encode_file(path, out_folder, use_zlib) restricted to its codec
content: optional compression, canonicalization, the PNG canvas, the WAV
frames (pixels.flatten(), not the canvas), and the Metadata Record.
Returns none when pixels_to_image_file raises (empty pixel list). -/
def encode_file (compress : List Nat → List Nat) (useZlib : Bool)
    (data : List Nat) : Option EncodeResult :=
  let step := maybe_compress compress useZlib data
  let px := bytes_to_pixels step.1
  match pixels_to_image_file px.1 with
  | none => none
  | some (canvas, w, h) =>
      some { canvas := canvas
             wavFrames := flatten3 px.1
             meta := { orig_size_bytes := data.length
                       zlib_used := step.2
                       pad_bytes := px.2
                       image_width := w
                       image_height := h } }

/-- The WAV-writing stage of encode_file (lines 100-106 and 122-126)
on its own: compression, canonicalization, and the frame bytes
pixels.flatten().tobytes(), written as 1-channel 8-bit PCM at 44100 Hz.
Returns the WAV file together with the pad and zlib_used metadata. -/
def encode_wav (compress : List Nat → List Nat) (useZlib : Bool)
    (data : List Nat) : WavFile × Nat × Bool :=
  let step := maybe_compress compress useZlib data
  let px := bytes_to_pixels step.1
  (⟨1, 1, 44100, flatten3 px.1⟩, px.2, step.2)

/-- Model of reconstruct_from_image: read all width*height pixels of the PNG
row-major, run pixels_to_bytes with the recorded pad, and decompress
when the zlib flag is set.  The original size recorded in the metadata
is never consulted. -/
def reconstruct_from_image (flat : List (Nat × Nat × Nat)) (pad : Nat)
    (zlibUsed : Bool) (decompress : List Nat → List Nat) : List Nat :=
  let raw := pixels_to_bytes flat pad
  if zlibUsed then decompress raw else raw

/-- Model of reconstruct_from_wav: read all frame bytes verbatim (no sample-format
inspection), drop the last pad bytes when pad is nonzero (Python
raw[:-pad]), and decompress when the zlib flag is set. -/
def reconstruct_from_wav (wav : WavFile) (pad : Nat) (zlibUsed : Bool)
    (decompress : List Nat → List Nat) : List Nat :=
  let frames := wav.frames
  let raw := if pad ≠ 0 then frames.take (frames.length - pad) else frames
  if zlibUsed then decompress raw else raw

/-- Error taxonomy named by the specification. -/
inductive CodecError where
  | invalidPadding
  | unsupportedSampleFormat
  deriving Repr, DecidableEq

/-- Modelled from the spec: decode_unpad(triplets, padding_count)
flattens the triplets and removes the last padding_count bytes, and
fails with InvalidPadding if padding_count exceeds the flattened length
or padding_count is not in 0..2.  Stated here only to compare with the
source's pixels_to_bytes, which performs no such check. -/
def decode_unpad_spec (pixels : List (Nat × Nat × Nat)) (pad : Nat) :
    Except CodecError (List Nat) :=
  let b := flatten3 pixels
  if b.length < pad ∨ 2 < pad then Except.error CodecError.invalidPadding
  else Except.ok (b.take (b.length - pad))

/-- Modelled from the spec: the audio read path fails with
UnsupportedSampleFormat when the container is not 1-channel 8-bit
unsigned.  Stated here only to compare with the source's
reconstruct_from_wav, which performs no such check. -/
def wav_read_spec (wav : WavFile) : Except CodecError (List Nat) :=
  if wav.sampwidth ≠ 1 ∨ wav.nchannels ≠ 1 then
    Except.error CodecError.unsupportedSampleFormat
  else Except.ok wav.frames

/-- Concrete encode result for the 3-byte payload 1,2,3: one triplet on
a 1x1 grid with no padding and no filler. -/
def wavWitnessR : EncodeResult :=
  { canvas := [(1, 2, 3)]
    wavFrames := [1, 2, 3]
    meta := { orig_size_bytes := 3, zlib_used := false, pad_bytes := 0,
              image_width := 1, image_height := 1 } }

/-- Concrete encode result for the 12-byte payload 1..12: four triplets
exactly filling a 2x2 grid with no padding and no filler. -/
def c10WitnessR : EncodeResult :=
  { canvas := [(1, 2, 3), (4, 5, 6), (7, 8, 9), (10, 11, 12)]
    wavFrames := [1, 2, 3, 4, 5, 6, 7, 8, 9, 10, 11, 12]
    meta := { orig_size_bytes := 12, zlib_used := false, pad_bytes := 0,
              image_width := 2, image_height := 2 } }

/-! ### Basic lemmas about the canonicalizer -/

theorem padOf_eq (n : Nat) : padOf n = (3 - n % 3) % 3 := by
  simp only [padOf]
  omega

theorem padOf_lt (n : Nat) : padOf n < 3 := by
  rw [padOf_eq]; omega

theorem padOf_add_mod (n : Nat) : (n + padOf n) % 3 = 0 := by
  rw [padOf_eq]; omega

theorem flatten3_length (ps : List (Nat × Nat × Nat)) :
    (flatten3 ps).length = 3 * ps.length := by
  induction ps with
  | nil => rfl
  | cons p rest ih =>
      obtain ⟨a, b, c⟩ := p
      simp [flatten3, ih]; ring

theorem flatten3_append (xs ys : List (Nat × Nat × Nat)) :
    flatten3 (xs ++ ys) = flatten3 xs ++ flatten3 ys := by
  induction xs with
  | nil => rfl
  | cons p rest ih =>
      obtain ⟨a, b, c⟩ := p
      simp [flatten3, ih]

theorem flatten3_replicate (k : Nat) :
    flatten3 (List.replicate k (0, 0, 0)) = List.replicate (3 * k) 0 := by
  induction k with
  | zero => rfl
  | succ m ih =>
      rw [List.replicate_succ, flatten3, ih]
      have : 3 * (m + 1) = (3 * m) + 1 + 1 + 1 := by ring
      rw [this]
      simp [List.replicate_succ]

theorem flatten3_group3 : ∀ l : List Nat, l.length % 3 = 0 →
    flatten3 (group3 l) = l
  | [], _ => rfl
  | [_], h => by simp at h
  | [_, _], h => by simp at h
  | a :: b :: c :: rest, h => by
      have hr : rest.length % 3 = 0 := by
        simp only [List.length_cons] at h
        omega
      simp only [group3, flatten3]
      rw [flatten3_group3 rest hr]

theorem flatten3_bytes_to_pixels (data : List Nat) :
    flatten3 (bytes_to_pixels data).1
      = data ++ List.replicate (padOf data.length) 0 := by
  have hlen : (data ++ List.replicate (padOf data.length) 0).length % 3 = 0 := by
    simp only [List.length_append, List.length_replicate]
    exact padOf_add_mod data.length
  exact flatten3_group3 _ hlen

theorem bytes_to_pixels_length (data : List Nat) :
    3 * (bytes_to_pixels data).1.length
      = data.length + (bytes_to_pixels data).2 := by
  have hp2 : (bytes_to_pixels data).2 = padOf data.length := rfl
  have h1 := flatten3_length (bytes_to_pixels data).1
  rw [flatten3_bytes_to_pixels] at h1
  simp only [List.length_append, List.length_replicate] at h1
  omega

theorem pixels_to_bytes_bytes_to_pixels (data : List Nat) :
    pixels_to_bytes (bytes_to_pixels data).1 (bytes_to_pixels data).2 = data := by
  have hp2 : (bytes_to_pixels data).2 = padOf data.length := rfl
  simp only [pixels_to_bytes, hp2, flatten3_bytes_to_pixels]
  by_cases hpad : padOf data.length = 0
  · simp [hpad]
  · simp only [hpad, if_pos (by exact hpad)]
    rw [List.length_append, List.length_replicate, Nat.add_sub_cancel]
    exact List.take_left data _

/-! ### Lemmas about the grid dimensions -/

theorem ceilSqrtAux_spec (n : Nat) : ∀ fuel w,
    n ≤ (w + fuel) * (w + fuel) → (∀ v, v < w → v * v < n) →
    n ≤ ceilSqrtAux n fuel w * ceilSqrtAux n fuel w ∧
      ∀ v, v < ceilSqrtAux n fuel w → v * v < n
  | 0, w, hub, hinv => by
      simp only [ceilSqrtAux]
      exact ⟨by simpa using hub, hinv⟩
  | fuel + 1, w, hub, hinv => by
      by_cases hle : n ≤ w * w
      · simp only [ceilSqrtAux, if_pos hle]
        exact ⟨hle, hinv⟩
      · simp only [ceilSqrtAux, if_neg hle]
        refine ceilSqrtAux_spec n fuel (w + 1) ?_ ?_
        · have harr : w + 1 + fuel = w + (fuel + 1) := by omega
          rw [harr]
          exact hub
        · intro v hv
          rcases Nat.lt_succ_iff_lt_or_eq.mp hv with hlt | heq
          · exact hinv v hlt
          · subst heq
            omega

theorem ceilSqrt_least (n : Nat) :
    n ≤ ceilSqrt n * ceilSqrt n ∧ ∀ v, v < ceilSqrt n → v * v < n := by
  refine ceilSqrtAux_spec n n 0 ?_ ?_
  · simpa using Nat.le_mul_self n
  · intro v hv
    exact absurd hv (Nat.not_lt_zero v)

theorem ceilSqrt_eq_zero_iff (n : Nat) : ceilSqrt n = 0 ↔ n = 0 := by
  constructor
  · intro h0
    have := (ceilSqrt_least n).1
    rw [h0] at this
    omega
  · intro h0
    subst h0
    rfl

theorem ceilSqrt_spec (n : Nat) (h : 1 ≤ n) :
    n ≤ ceilSqrt n * ceilSqrt n ∧ (ceilSqrt n - 1) * (ceilSqrt n - 1) < n := by
  obtain ⟨hub, hmin⟩ := ceilSqrt_least n
  have hw : ¬ ceilSqrt n = 0 := by
    rw [ceilSqrt_eq_zero_iff]
    omega
  exact ⟨hub, hmin _ (by omega)⟩

theorem grid_ceil_div (n s : Nat) (hs : 1 ≤ s) (hn : 1 ≤ n) :
    n ≤ s * ((n + s - 1) / s) ∧ s * ((n + s - 1) / s) < n + s := by
  have hdm := Nat.div_add_mod (n + s - 1) s
  have hmlt : (n + s - 1) % s < s := Nat.mod_lt _ hs
  generalize hm : s * ((n + s - 1) / s) = m at hdm ⊢
  omega

theorem imageDims_spec (n w h : Nat) (hd : imageDims n = some (w, h)) :
    1 ≤ w ∧ 1 ≤ n ∧ n ≤ w * w ∧ (w - 1) * (w - 1) < n ∧
      n ≤ w * h ∧ w * h < n + w := by
  simp only [imageDims] at hd
  by_cases hw : ceilSqrt n = 0
  · rw [if_pos hw] at hd
    cases hd
  · rw [if_neg hw] at hd
    simp only [Option.some.injEq, Prod.mk.injEq] at hd
    obtain ⟨rfl, rfl⟩ := hd
    have hn : 1 ≤ n := by
      rcases Nat.eq_zero_or_pos n with h0 | h1
      · subst h0; exact absurd rfl hw
      · exact h1
    have hs := ceilSqrt_spec n hn
    have hq := grid_ceil_div n (ceilSqrt n) (Nat.pos_of_ne_zero hw) hn
    exact ⟨Nat.pos_of_ne_zero hw, hn, hs.1, hs.2, hq.1, hq.2⟩

/-! ### Decoding the canvas produced by an encode -/

theorem pixels_to_bytes_canvas (data : List Nat) (k : Nat) :
    pixels_to_bytes ((bytes_to_pixels data).1 ++ List.replicate k (0, 0, 0))
        (bytes_to_pixels data).2
      = data ++ List.replicate (3 * k) 0 := by
  have hp2 : (bytes_to_pixels data).2 = padOf data.length := rfl
  simp only [pixels_to_bytes, hp2, flatten3_append, flatten3_bytes_to_pixels,
    flatten3_replicate]
  rw [List.append_assoc, ← List.replicate_add]
  by_cases hpad : padOf data.length = 0
  · rw [hpad, if_neg (by simp)]
    simp
  · rw [if_pos (by exact hpad)]
    rw [List.length_append, List.length_replicate]
    have harith : data.length + (padOf data.length + 3 * k) - padOf data.length
        = data.length + 3 * k := by omega
    rw [harith, List.take_append, List.take_replicate]
    have hmin : min (3 * k) (padOf data.length + 3 * k) = 3 * k := by omega
    rw [hmin]

/-- Characterization of a successful encode_file call: data is optionally
compressed, padded and grouped; the canvas is the pixels followed by the
filler triplets of a grid whose dimensions satisfy imageDims; the WAV
frames are the flattened pixels; and the metadata records pad and the
compression flag. -/
theorem encode_file_eq (compress : List Nat → List Nat) (useZlib : Bool)
    (data : List Nat) (r : EncodeResult)
    (h : encode_file compress useZlib data = some r) :
    imageDims (bytes_to_pixels (maybe_compress compress useZlib data).1).1.length
        = some (r.meta.image_width, r.meta.image_height) ∧
    r.canvas = (bytes_to_pixels (maybe_compress compress useZlib data).1).1
        ++ List.replicate
            (r.meta.image_height * r.meta.image_width
              - (bytes_to_pixels (maybe_compress compress useZlib data).1).1.length)
            (0, 0, 0) ∧
    r.wavFrames = flatten3 (bytes_to_pixels (maybe_compress compress useZlib data).1).1 ∧
    r.meta.pad_bytes = (bytes_to_pixels (maybe_compress compress useZlib data).1).2 ∧
    r.meta.zlib_used = (maybe_compress compress useZlib data).2 ∧
    r.meta.orig_size_bytes = data.length := by
  simp only [encode_file, pixels_to_image_file] at h
  rcases hdim : imageDims
      (bytes_to_pixels (maybe_compress compress useZlib data).1).1.length
    with _ | wh
  · rw [hdim] at h
    simp at h
  · obtain ⟨w, hgt⟩ := wh
    rw [hdim] at h
    simp only [Option.some.injEq] at h
    subst h
    exact ⟨rfl, rfl, rfl, rfl, rfl, rfl⟩

/-! ### Claim C3: canonicalizer correctness -/

/-- Claim C3: bytes_to_pixels pads with (minus the length) mod 3 zero
bytes, equal to (3 - len mod 3) mod 3 and in particular 0,2,1,0,2,1,0 for
lengths 0..6; the padding count lies in 0..2; three times the triplet
count equals the payload length plus the padding count; and
pixels_to_bytes with that padding count is an exact inverse. -/
theorem C3_canonicalizer (P : List Nat) :
    (bytes_to_pixels P).2 = (3 - P.length % 3) % 3 ∧
    (bytes_to_pixels P).2 < 3 ∧
    3 * (bytes_to_pixels P).1.length = P.length + (bytes_to_pixels P).2 ∧
    pixels_to_bytes (bytes_to_pixels P).1 (bytes_to_pixels P).2 = P ∧
    ((bytes_to_pixels (List.replicate 0 9)).2 = 0 ∧
     (bytes_to_pixels (List.replicate 1 9)).2 = 2 ∧
     (bytes_to_pixels (List.replicate 2 9)).2 = 1 ∧
     (bytes_to_pixels (List.replicate 3 9)).2 = 0 ∧
     (bytes_to_pixels (List.replicate 4 9)).2 = 2 ∧
     (bytes_to_pixels (List.replicate 5 9)).2 = 1 ∧
     (bytes_to_pixels (List.replicate 6 9)).2 = 0) :=
  ⟨padOf_eq P.length, padOf_lt P.length, bytes_to_pixels_length P,
    pixels_to_bytes_bytes_to_pixels P, by decide, by decide, by decide,
    by decide, by decide, by decide, by decide⟩

/-! ### Claim C4: empty-payload edge case -/

/-- Claim C4 evaluation at the failing input: on the empty payload the
canonicalizer yields 0 triplets with padding 0, but pixels_to_image_file
chooses width ceil(sqrt(0)) = 0 and the height computation divides by
zero (ZeroDivisionError, modelled as none), so encode_file produces no
1x1 image and no artifacts at all, contradicting the claim. -/
theorem C4_empty_payload_crash :
    bytes_to_pixels ([] : List Nat) = ([], 0) ∧
    imageDims 0 = none ∧
    pixels_to_image_file ([] : List (Nat × Nat × Nat)) = none ∧
    encode_file (fun x => x) false ([] : List Nat) = none :=
  ⟨rfl, rfl, rfl, rfl⟩

/-! ### Claim C5: grid shape invariant -/

/-- Claim C5 counterexample: for triplet count 0 the claim asserts that
width and height are chosen with width*height at least 0, but the code
chooses width ceil(sqrt(0)) = 0 and then raises ZeroDivisionError
computing the height, so no dimensions are produced at all. -/
theorem C5_counterexample : imageDims 0 = none := rfl

/-- Claim C5 (amended: for every triplet count n at least 1): the chosen
width w is the least natural with w*w at least n (that is, w =
ceil(sqrt(n))), the height is ceil(n / w), and they satisfy n at most
w*h and w*h - n < w: filler occupies at most the last row. -/
theorem C5_grid_shape (n : Nat) (h : 1 ≤ n) :
    ∃ w hgt, imageDims n = some (w, hgt) ∧
      n ≤ w * w ∧ (w - 1) * (w - 1) < n ∧
      n ≤ w * hgt ∧ w * hgt - n < w := by
  have hn0 : ¬ n = 0 := by omega
  have hw : ¬ ceilSqrt n = 0 := by
    rw [ceilSqrt_eq_zero_iff]
    omega
  have hdim : imageDims n
      = some (ceilSqrt n, (n + ceilSqrt n - 1) / ceilSqrt n) := by
    simp [imageDims, hw]
  obtain ⟨hw1, -, hww, hwn, hnwh, hwhn⟩ := imageDims_spec n _ _ hdim
  refine ⟨_, _, hdim, hww, hwn, hnwh, ?_⟩
  generalize hm : ceilSqrt n * ((n + ceilSqrt n - 1) / ceilSqrt n) = m
    at hnwh hwhn ⊢
  omega

/-- Witness for the amended claim C5 at the concrete triplet count 3
(Scenario A): the chosen grid is 2 by 2. -/
theorem C5_grid_shape_witness :
    (1 ≤ 3 ∧ ∃ w hgt, imageDims 3 = some (w, hgt) ∧
      3 ≤ w * w ∧ (w - 1) * (w - 1) < 3 ∧
      3 ≤ w * hgt ∧ w * hgt - 3 < w) ∧
    imageDims 3 = some (2, 2) :=
  ⟨⟨by decide, C5_grid_shape 3 (by decide)⟩, by decide⟩

/-! ### Claim C1: image round-trip -/

/-- Claim C1 evaluation at the failing input (Scenario A): encoding the
7-byte payload 0x41..0x47 gives padding 2 and a 2x2 grid with one filler
triplet, but reconstruct_from_image never truncates by the recorded
original size: it flattens all 4 grid triplets (12 bytes) and drops only
the 2 padding bytes, returning 10 bytes - the payload followed by three
zero bytes - instead of the original 7 bytes. -/
theorem C1_image_roundtrip_bug :
    (encode_file (fun x => x) false [65, 66, 67, 68, 69, 70, 71]).map
        (fun r => (r.meta.pad_bytes, r.meta.image_width, r.meta.image_height))
      = some (2, 2, 2) ∧
    (encode_file (fun x => x) false [65, 66, 67, 68, 69, 70, 71]).map
        (fun r => r.canvas)
      = some [(65, 66, 67), (68, 69, 70), (71, 0, 0), (0, 0, 0)] ∧
    (encode_file (fun x => x) false [65, 66, 67, 68, 69, 70, 71]).map
        (fun r => reconstruct_from_image r.canvas r.meta.pad_bytes
          r.meta.zlib_used (fun x => x))
      = some [65, 66, 67, 68, 69, 70, 71, 0, 0, 0] ∧
    [65, 66, 67, 68, 69, 70, 71, 0, 0, 0] ≠ [65, 66, 67, 68, 69, 70, 71] :=
  ⟨by decide, by decide, by decide, by decide⟩

/-! ### Helper lemmas for the decode paths -/

theorem reconstruct_from_image_nozlib (flat : List (Nat × Nat × Nat))
    (pad : Nat) (decompress : List Nat → List Nat) :
    reconstruct_from_image flat pad false decompress
      = pixels_to_bytes flat pad := rfl

theorem maybe_compress_cases (compress : List Nat → List Nat)
    (useZlib : Bool) (P : List Nat) :
    ((maybe_compress compress useZlib P).2 = true
        ∧ (maybe_compress compress useZlib P).1 = compress P
        ∧ (compress P).length < P.length)
    ∨ ((maybe_compress compress useZlib P).2 = false
        ∧ (maybe_compress compress useZlib P).1 = P
        ∧ (useZlib = true → ¬ (compress P).length < P.length)) := by
  cases useZlib with
  | false =>
      right
      exact ⟨rfl, rfl, fun hf => by cases hf⟩
  | true =>
      by_cases hlt : (compress P).length < P.length
      · left
        simp only [maybe_compress, if_pos hlt]
        exact ⟨rfl, rfl, hlt⟩
      · right
        simp only [maybe_compress, if_neg hlt]
        exact ⟨rfl, rfl, fun _ => hlt⟩

theorem reconstruct_from_wav_padded (dataC : List Nat) (used : Bool)
    (decompress : List Nat → List Nat) (nch sw fr : Nat) :
    reconstruct_from_wav
        ⟨nch, sw, fr, dataC ++ List.replicate (padOf dataC.length) 0⟩
        (padOf dataC.length) used decompress
      = if used then decompress dataC else dataC := by
  simp only [reconstruct_from_wav]
  by_cases hpad : padOf dataC.length = 0
  · rw [hpad]
    simp
  · rw [if_pos (show padOf dataC.length ≠ 0 from hpad)]
    rw [List.length_append, List.length_replicate, Nat.add_sub_cancel,
      List.take_left]

/-! ### Claim C10: image decode without compression -/

/-- Claim C10: with compression not used, reconstruct_from_image on the
encoded PNG plus its metadata returns a byte string of length
width*height*3 - pad_bytes whose first len(P) bytes equal P; when the
grid is exactly full (width*height equals the triplet count) the image
round trip is exact. -/
theorem C10_image_decode_conditional (P : List Nat) (r : EncodeResult)
    (henc : encode_file (fun x => x) false P = some r) :
    (reconstruct_from_image r.canvas r.meta.pad_bytes r.meta.zlib_used
        (fun x => x)).length
      = r.meta.image_width * r.meta.image_height * 3 - r.meta.pad_bytes ∧
    (reconstruct_from_image r.canvas r.meta.pad_bytes r.meta.zlib_used
        (fun x => x)).take P.length = P ∧
    (r.meta.image_width * r.meta.image_height
        = (bytes_to_pixels P).1.length →
      reconstruct_from_image r.canvas r.meta.pad_bytes r.meta.zlib_used
        (fun x => x) = P) := by
  obtain ⟨hdim, hcanvas, hwav, hpad, hzlib, hsize⟩ :=
    encode_file_eq (fun x => x) false P r henc
  have hmc : maybe_compress (fun x => x) false P = (P, false) := rfl
  rw [hmc] at hdim hcanvas hpad hzlib
  dsimp only at hdim hcanvas hpad hzlib
  obtain ⟨hw1, hn1, -, -, hnwh, hwhn⟩ := imageDims_spec _ _ _ hdim
  have h3 := bytes_to_pixels_length P
  have hcomm : r.meta.image_width * r.meta.image_height
      = r.meta.image_height * r.meta.image_width := Nat.mul_comm _ _
  rw [hzlib, reconstruct_from_image_nozlib, hcanvas, hpad,
    pixels_to_bytes_canvas]
  refine ⟨?_, List.take_left P _, ?_⟩
  · rw [List.length_append, List.length_replicate]
    generalize hn : (bytes_to_pixels P).1.length = n at *
    generalize hA : r.meta.image_width * r.meta.image_height = A at *
    generalize hB : r.meta.image_height * r.meta.image_width = B at *
    omega
  · intro hfull
    have hk : r.meta.image_height * r.meta.image_width
        - (bytes_to_pixels P).1.length = 0 := by
      generalize hn : (bytes_to_pixels P).1.length = n at *
      generalize hA : r.meta.image_width * r.meta.image_height = A at *
      generalize hB : r.meta.image_height * r.meta.image_width = B at *
      omega
    rw [hk]
    simp

/-- Witness for claim C10 at the 12-byte payload 1..12, whose 4 triplets
exactly fill the 2x2 grid, so the round trip is exact. -/
theorem C10_image_decode_conditional_witness :
    encode_file (fun x => x) false [1, 2, 3, 4, 5, 6, 7, 8, 9, 10, 11, 12]
        = some c10WitnessR ∧
    c10WitnessR.meta.image_width * c10WitnessR.meta.image_height
        = (bytes_to_pixels [1, 2, 3, 4, 5, 6, 7, 8, 9, 10, 11, 12]).1.length ∧
    reconstruct_from_image c10WitnessR.canvas c10WitnessR.meta.pad_bytes
        c10WitnessR.meta.zlib_used (fun x => x)
      = [1, 2, 3, 4, 5, 6, 7, 8, 9, 10, 11, 12] :=
  ⟨by decide, by decide,
    (C10_image_decode_conditional [1, 2, 3, 4, 5, 6, 7, 8, 9, 10, 11, 12]
      c10WitnessR (by decide)).2.2 (by decide)⟩

/-! ### Claim C2: audio round-trip -/

/-- Claim C2: for every byte payload P, writing the flattened triplet
bytes as WAV frames and then reconstructing with the recorded metadata
(drop the last pad bytes, decompress when the flag is set) returns
exactly P, for any lossless compressor. -/
theorem C2_wav_roundtrip (P : List Nat) (useZlib : Bool)
    (compress decompress : List Nat → List Nat)
    (hinv : ∀ x, decompress (compress x) = x) :
    reconstruct_from_wav (encode_wav compress useZlib P).1
      (encode_wav compress useZlib P).2.1
      (encode_wav compress useZlib P).2.2 decompress = P := by
  have henc : encode_wav compress useZlib P
      = (⟨1, 1, 44100,
          (maybe_compress compress useZlib P).1
            ++ List.replicate
                (padOf (maybe_compress compress useZlib P).1.length) 0⟩,
         padOf (maybe_compress compress useZlib P).1.length,
         (maybe_compress compress useZlib P).2) := by
    simp only [encode_wav]
    rw [flatten3_bytes_to_pixels]
    rfl
  rw [henc]
  rw [reconstruct_from_wav_padded]
  rcases maybe_compress_cases compress useZlib P with
    ⟨h2, h1, -⟩ | ⟨h2, h1, -⟩
  · rw [h2, h1]
    simp [hinv P]
  · rw [h2, h1]
    simp

/-- Witness for claim C2 at the payload 1,2 with the identity
compressor. -/
theorem C2_wav_roundtrip_witness :
    reconstruct_from_wav (encode_wav (fun x => x) false [1, 2]).1
      (encode_wav (fun x => x) false [1, 2]).2.1
      (encode_wav (fun x => x) false [1, 2]).2.2 (fun x => x) = [1, 2] :=
  C2_wav_roundtrip [1, 2] false (fun x => x) (fun x => x) (fun _ => rfl)

/-! ### Claim C6: compression is never harmful -/

/-- Claim C6: when compression is requested, the compression stage's
output is never longer than the input; the stored flag is true exactly
when the compressed form is strictly shorter; and when the flag is false
the payload is passed on unchanged. -/
theorem C6_compression_never_harmful (compress : List Nat → List Nat)
    (P : List Nat) :
    (maybe_compress compress true P).1.length ≤ P.length ∧
    ((maybe_compress compress true P).2 = true
      ↔ (compress P).length < P.length) ∧
    ((maybe_compress compress true P).2 = false
      → (maybe_compress compress true P).1 = P) := by
  rcases maybe_compress_cases compress true P with
    ⟨h2, h1, hlt⟩ | ⟨h2, h1, hnlt⟩
  · refine ⟨by rw [h1]; omega, by simp [h2, hlt], ?_⟩
    intro hf
    rw [h2] at hf
    cases hf
  · have hnlt2 := hnlt rfl
    exact ⟨by rw [h1], by simp [h2, hnlt2], fun _ => h1⟩

/-- Witness for claim C6: with the identity compressor on the payload
1,2 no strict shrinkage occurs, the flag is false, and the payload
passes through unchanged. -/
theorem C6_compression_never_harmful_witness :
    (maybe_compress (fun x => x) true [1, 2]).2 = false ∧
    (maybe_compress (fun x => x) true [1, 2]).1 = [1, 2] :=
  ⟨by decide,
    (C6_compression_never_harmful (fun x => x) [1, 2]).2.2 (by decide)⟩

/-! ### Claim C7: audio stream length -/

/-- Claim C7 counterexample: for the 7-byte payload 0x41..0x47 the WAV
stream holds 9 bytes (3 per real triplet), not width*height*3 = 12: the
encoder writes pixels.flatten(), not the zero-filled grid canvas. -/
theorem C7_counterexample :
    (encode_file (fun x => x) false [65, 66, 67, 68, 69, 70, 71]).map
        (fun r => (r.wavFrames.length,
          r.meta.image_width * r.meta.image_height * 3))
      = some (9, 12) ∧ (9 : Nat) ≠ 12 :=
  ⟨by decide, by decide⟩

/-- Claim C7 (amended): the WAV stream written by a successful encode has
length equal to the compressed payload length plus the padding count,
that is 3 times the triplet count, which is at most width*height*3 (with
equality only when the grid is exactly full). -/
theorem C7_wav_length (compress : List Nat → List Nat) (useZlib : Bool)
    (P : List Nat) (r : EncodeResult)
    (henc : encode_file compress useZlib P = some r) :
    r.wavFrames.length
        = (maybe_compress compress useZlib P).1.length + r.meta.pad_bytes ∧
    r.wavFrames.length
        = 3 * (bytes_to_pixels (maybe_compress compress useZlib P).1).1.length ∧
    r.wavFrames.length ≤ r.meta.image_width * r.meta.image_height * 3 := by
  obtain ⟨hdim, hcanvas, hwav, hpad, hzlib, hsize⟩ :=
    encode_file_eq compress useZlib P r henc
  have hlen :=
    flatten3_length (bytes_to_pixels (maybe_compress compress useZlib P).1).1
  have h3 := bytes_to_pixels_length (maybe_compress compress useZlib P).1
  obtain ⟨hw1, hn1, -, -, hnwh, -⟩ := imageDims_spec _ _ _ hdim
  rw [hwav, hlen]
  refine ⟨?_, rfl, ?_⟩
  · rw [hpad]
    omega
  · generalize hn :
      (bytes_to_pixels (maybe_compress compress useZlib P).1).1.length = n
      at *
    generalize hA : r.meta.image_width * r.meta.image_height = A at *
    omega

/-- Witness for the amended claim C7 at the 3-byte payload 1,2,3: the
stream has 3 bytes and the 1x1 grid gives the same bound 3. -/
theorem C7_wav_length_witness :
    encode_file (fun x => x) false [1, 2, 3] = some wavWitnessR ∧
    wavWitnessR.wavFrames.length
        = (maybe_compress (fun x => x) false [1, 2, 3]).1.length
          + wavWitnessR.meta.pad_bytes ∧
    wavWitnessR.wavFrames.length
        = 3 * (bytes_to_pixels
            (maybe_compress (fun x => x) false [1, 2, 3]).1).1.length ∧
    wavWitnessR.wavFrames.length
        ≤ wavWitnessR.meta.image_width * wavWitnessR.meta.image_height * 3 :=
  ⟨by decide, C7_wav_length (fun x => x) false [1, 2, 3] wavWitnessR
    (by decide)⟩

/-! ### Claim C8: InvalidPadding -/

/-- Claim C8 counterexample: for one triplet (3 flattened bytes) and
padding count 5 - exceeding both the flattened length and the range
0..2 - the unpadding step does not fail: Python's b[:-5] silently yields
the empty byte string on the image path and on the WAV path alike, while
the spec's decode_unpad demands an InvalidPadding failure there. -/
theorem C8_counterexample :
    pixels_to_bytes [(1, 2, 3)] 5 = [] ∧
    reconstruct_from_wav ⟨1, 1, 44100, [1, 2, 3]⟩ 5 false (fun x => x)
      = [] ∧
    decode_unpad_spec [(1, 2, 3)] 5
      = Except.error CodecError.invalidPadding :=
  ⟨rfl, rfl, rfl⟩

/-- Claim C8 (amended): the unpadding step never fails and validates
nothing: for every triplet list and every padding count - also counts
above 2 or beyond the flattened length - it returns the first
(flattened length - pad) bytes, the empty payload once pad reaches the
flattened length, and the WAV path's padding removal behaves
identically. -/
theorem C8_no_validation (pixels : List (Nat × Nat × Nat)) (pad : Nat) :
    (pixels_to_bytes pixels pad).length = 3 * pixels.length - pad ∧
    (3 * pixels.length ≤ pad → pixels_to_bytes pixels pad = []) ∧
    reconstruct_from_wav ⟨1, 1, 44100, flatten3 pixels⟩ pad false
        (fun x => x)
      = pixels_to_bytes pixels pad := by
  have hlen := flatten3_length pixels
  refine ⟨?_, ?_, rfl⟩
  · simp only [pixels_to_bytes]
    by_cases hpad : pad = 0
    · rw [hpad]
      simp [hlen]
    · rw [if_pos (show pad ≠ 0 from hpad)]
      rw [List.length_take, hlen]
      omega
  · intro hle
    simp only [pixels_to_bytes]
    by_cases hpad : pad = 0
    · have hplen : pixels.length = 0 := by omega
      have hnil : pixels = [] := List.length_eq_zero.mp hplen
      subst hnil
      rw [hpad]
      simp [flatten3]
    · rw [if_pos (show pad ≠ 0 from hpad)]
      have h0 : (flatten3 pixels).length - pad = 0 := by
        rw [hlen]
        omega
      rw [h0, List.take_zero]

/-- Witness for the amended claim C8 at one triplet and padding count 5:
the result is the empty payload, of length 3*1 - 5 = 0. -/
theorem C8_no_validation_witness :
    (pixels_to_bytes [(1, 2, 3)] 5).length = 3 * [(1, 2, 3)].length - 5 ∧
    (3 * [(1, 2, 3)].length ≤ 5 ∧ pixels_to_bytes [(1, 2, 3)] 5 = []) :=
  ⟨(C8_no_validation [(1, 2, 3)] 5).1,
    by decide, (C8_no_validation [(1, 2, 3)] 5).2.1 (by decide)⟩

/-! ### Claim C9: UnsupportedSampleFormat -/

/-- Claim C9 counterexample: reading a WAV whose sample width is 2 bytes
(16-bit), the source's reconstruct_from_wav performs no format check and
returns the raw frame bytes, while the spec demands an
UnsupportedSampleFormat failure. -/
theorem C9_counterexample :
    reconstruct_from_wav ⟨1, 2, 44100, [10, 20, 30, 40]⟩ 0 false
        (fun x => x)
      = [10, 20, 30, 40] ∧
    wav_read_spec ⟨1, 2, 44100, [10, 20, 30, 40]⟩
      = Except.error CodecError.unsupportedSampleFormat :=
  ⟨rfl, rfl⟩

/-- Claim C9 (amended): the audio read path never fails on a sample
format: its output depends only on the frame bytes, the padding count
and the compression flag - the channel count, sample width and frame
rate of the container are ignored entirely. -/
theorem C9_no_format_check (frames : List Nat) (pad : Nat) (used : Bool)
    (decompress : List Nat → List Nat) (nch sw fr nch2 sw2 fr2 : Nat) :
    reconstruct_from_wav ⟨nch, sw, fr, frames⟩ pad used decompress
      = reconstruct_from_wav ⟨nch2, sw2, fr2, frames⟩ pad used decompress :=
  rfl

end WorkingPy
